import Mathlib

/-!
Shallow embedding of the CI-V protocol core of the `ci-v` repository:
frame codec (`civ-protocol/src/protocol.rs`), BCD codecs (`src/bcd.rs`),
frequency and operating-mode domain types (`src/frequency.rs`,
`civ-protocol/src/mode.rs`), the command model
(`civ-protocol/src/command.rs`), the response model
(`civ-protocol/src/response.rs`, plus the legacy offset decoder of
`src/response.rs`), and the session response reader (`src/radio.rs`).

Bytes are modelled as `Nat` (always < 256 in the wire data); Rust byte
operations that can wrap are given an explicit `% 256`. Fallible Rust
functions returning `Result<T, CivError>` become `Except CivError T`.
-/

namespace Civ

/-- Preamble byte of a CI-V frame (`PREAMBLE` in protocol.rs). -/
def PREAMBLE : Nat := 0xFE
/-- End-of-message byte of a CI-V frame (`EOM` in protocol.rs). -/
def EOM : Nat := 0xFD
/-- Command byte of an OK response (`OK` in protocol.rs). -/
def OK : Nat := 0xFB
/-- Command byte of an NG response (`NG` in protocol.rs). -/
def NG : Nat := 0xFA
/-- Default CI-V address of the radio (`ADDR_ID52`). -/
def ADDR_ID52 : Nat := 0xB4
/-- Default CI-V address of the controller (`ADDR_CONTROLLER`). -/
def ADDR_CONTROLLER : Nat := 0xE0

/-- Error type of the crate (`CivError` in error.rs). Payload-free variants
stand in for the error variants that carry non-protocol data. -/
inductive CivError where
  | IoError : CivError
  | PortNotFound : CivError
  | InvalidFrame : CivError
  | Ng : CivError
  | Timeout : CivError
  | InvalidBcd : Nat → CivError
  | FrequencyOutOfRange : Nat → CivError
  | UnknownMode : Nat → CivError
deriving Repr, DecidableEq

/-- Decidable equality for `Except`, so concrete codec runs can be settled
by `decide`. -/
instance {ε α : Type} [DecidableEq ε] [DecidableEq α] : DecidableEq (Except ε α) :=
  fun x y =>
    match x, y with
    | .error a, .error b =>
        if h : a = b then .isTrue (h ▸ rfl)
        else .isFalse (fun hc => h (by cases hc; rfl))
    | .ok a, .ok b =>
        if h : a = b then .isTrue (h ▸ rfl)
        else .isFalse (fun hc => h (by cases hc; rfl))
    | .error _, .ok _ => .isFalse (fun hc => Except.noConfusion hc)
    | .ok _, .error _ => .isFalse (fun hc => Except.noConfusion hc)

/-- A parsed CI-V frame (`Frame` in protocol.rs). -/
structure Frame where
  dst : Nat
  src : Nat
  command : Nat
  sub_command : Option Nat
  data : List Nat
deriving Repr, DecidableEq

/-- Construct a frame from the controller to the radio (`Frame::new`). -/
def Frame.new (command : Nat) (sub_command : Option Nat) (data : List Nat) : Frame :=
  ⟨ADDR_ID52, ADDR_CONTROLLER, command, sub_command, data⟩

/-- Serialize a frame to its wire representation (`Frame::to_bytes`). -/
def Frame.toBytes (f : Frame) : List Nat :=
  [PREAMBLE, PREAMBLE, f.dst, f.src, f.command]
    ++ (match f.sub_command with | some sc => [sc] | none => [])
    ++ f.data ++ [EOM]

/-- Position of the first window of two consecutive preamble bytes,
mirroring `buf.windows(2).position(|w| w[0] == PREAMBLE && w[1] == PREAMBLE)`. -/
def findPreamble : List Nat → Option Nat
  | a :: b :: rest =>
      if a = PREAMBLE ∧ b = PREAMBLE then some 0
      else (findPreamble (b :: rest)).map (· + 1)
  | _ => none

/-- Position of the first occurrence of `t`, mirroring
`iter().position(|&b| b == t)`. -/
def findIdx (t : Nat) : List Nat → Option Nat
  | [] => none
  | a :: rest => if a = t then some 0 else (findIdx t rest).map (· + 1)

/-- Parse a CI-V frame from a byte buffer (`Frame::parse`). `ok none` is the
Incomplete outcome, `error` the Invalid outcome; on success the frame and the
consumed byte count (measured from the preamble run) are returned. -/
def Frame.parse (buf : List Nat) : Except CivError (Option (Frame × Nat)) :=
  match findPreamble buf with
  | none => .ok none
  | some start =>
    match findIdx EOM (buf.drop start) with
    | none => .ok none
    | some pos =>
      let eomPos := start + pos
      let frameBytes := (buf.drop start).take (pos + 1)
      if frameBytes.length < 6 then .error .InvalidFrame
      else
        let dst := frameBytes.getD 2 0
        let src := frameBytes.getD 3 0
        let command := frameBytes.getD 4 0
        let payload := (frameBytes.drop 5).take (frameBytes.length - 6)
        let sd : Option Nat × List Nat :=
          if command = OK ∨ command = NG ∨ payload = [] then (none, [])
          else if payload.length = 1 then (some (payload.getD 0 0), [])
          else (some (payload.getD 0 0), payload.drop 1)
        let consumed := eomPos + 1 - start
        .ok (some (⟨dst, src, command, sd.1, sd.2⟩, consumed))

/-- Payload of the frame located in `buf` (the bytes between the command byte
and the terminator), extracted exactly as `Frame::parse` extracts it. -/
def framePayload (buf : List Nat) : Option (List Nat) :=
  match findPreamble buf with
  | none => none
  | some start =>
    match findIdx EOM (buf.drop start) with
    | none => none
    | some pos =>
      let frameBytes := (buf.drop start).take (pos + 1)
      if frameBytes.length < 6 then none
      else some ((frameBytes.drop 5).take (frameBytes.length - 6))

/-- Classify a frame as an OK response (`Frame::is_ok`). -/
def Frame.isOkFrame (f : Frame) : Bool := f.command == OK

/-- Classify a frame as an NG response (`Frame::is_ng`). -/
def Frame.isNgFrame (f : Frame) : Bool := f.command == NG

/-! ## BCD codec (`src/bcd.rs`) -/

/-- Decode a single BCD byte into its decimal value (`decode_bcd_byte`). -/
def decode_bcd_byte (b : Nat) : Except CivError Nat :=
  let high := b / 16
  let low := b % 16
  if 9 < high ∨ 9 < low then .error (.InvalidBcd b)
  else .ok (high * 10 + low)

/-- Encode a decimal value 0–99 into a BCD byte (`encode_bcd_byte`).
The Rust `(value / 10) << 4 | (value % 10)` has disjoint bits, hence `+`. -/
def encode_bcd_byte (v : Nat) : Except CivError Nat :=
  if 99 < v then .error (.InvalidBcd v)
  else .ok ((v / 10) * 16 + v % 10)

/-- Decode a little-endian BCD byte sequence (`decode_bcd_le`). The Rust loop
iterates the bytes in reverse with `result = result * 100 + pair`, which is
this recursion: the head byte holds the least-significant digit pair and is
folded in last. -/
def decode_bcd_le : List Nat → Except CivError Nat
  | [] => .ok 0
  | b :: rest => do
      let v ← decode_bcd_le rest
      let d ← decode_bcd_byte b
      pure (v * 100 + d)

/-- Encode a value into `len` little-endian BCD bytes (`encode_bcd_le`). -/
def encode_bcd_le (value : Nat) : Nat → Except CivError (List Nat)
  | 0 => .ok []
  | n + 1 => do
      let b ← encode_bcd_byte (value % 100)
      let rest ← encode_bcd_le (value / 100) n
      pure (b :: rest)

/-- Decode a big-endian BCD byte sequence (`decode_bcd_be`): the loop
`result = result * 100 + pair` over the bytes in order, as an accumulator. -/
def decode_bcd_be_aux (acc : Nat) : List Nat → Except CivError Nat
  | [] => .ok acc
  | b :: rest => do
      let d ← decode_bcd_byte b
      decode_bcd_be_aux (acc * 100 + d) rest

/-- Decode a big-endian BCD byte sequence (`decode_bcd_be`). -/
def decode_bcd_be (bytes : List Nat) : Except CivError Nat :=
  decode_bcd_be_aux 0 bytes

/-- Encode a value into `len` big-endian BCD bytes (`encode_bcd_be`): the Rust
loop fills indices from the end, so the last byte's pair is computed first. -/
def encode_bcd_be (value : Nat) : Nat → Except CivError (List Nat)
  | 0 => .ok []
  | n + 1 => do
      let b ← encode_bcd_byte (value % 100)
      let rest ← encode_bcd_be (value / 100) n
      pure (rest ++ [b])

/-! ## Frequency (`src/frequency.rs`) -/

/-- Upper bound of a frequency: 10 decimal digits. -/
def FREQ_MAX : Nat := 9999999999

/-- A radio frequency stored as Hz (`Frequency`). -/
structure Frequency where
  hz : Nat
deriving Repr, DecidableEq

/-- Construct a frequency from Hz, enforcing the 10-digit bound
(`Frequency::from_hz`). -/
def Frequency.from_hz (hz : Nat) : Except CivError Frequency :=
  if FREQ_MAX < hz then .error (.FrequencyOutOfRange hz)
  else .ok ⟨hz⟩

/-- Decode a frequency from 5 little-endian BCD bytes
(`Frequency::from_civ_bytes`). -/
def Frequency.from_civ_bytes (bytes : List Nat) : Except CivError Frequency := do
  let hz ← decode_bcd_le bytes
  Frequency.from_hz hz

/-- Encode a frequency to 5 little-endian BCD bytes
(`Frequency::to_civ_bytes`). -/
def Frequency.to_civ_bytes (f : Frequency) : Except CivError (List Nat) :=
  encode_bcd_le f.hz 5

/-! ## Operating mode (`civ-protocol/src/mode.rs`) -/

/-- Operating mode of the radio (`OperatingMode`). -/
inductive OperatingMode where
  | Fm | FmN | Am | AmN | Dv
deriving Repr, DecidableEq

def MODE_FM : Nat := 0x05
def MODE_AM : Nat := 0x02
def MODE_DV : Nat := 0x17
def FILTER_WIDE : Nat := 0x01
def FILTER_NARROW : Nat := 0x02

/-- Decode an operating mode from CI-V mode and filter bytes
(`OperatingMode::from_civ_bytes`). -/
def OperatingMode.from_civ_bytes (mode filter : Nat) : Except CivError OperatingMode :=
  if mode = MODE_FM ∧ filter = FILTER_WIDE then .ok .Fm
  else if mode = MODE_FM ∧ filter = FILTER_NARROW then .ok .FmN
  else if mode = MODE_AM ∧ filter = FILTER_WIDE then .ok .Am
  else if mode = MODE_AM ∧ filter = FILTER_NARROW then .ok .AmN
  else if mode = MODE_DV then .ok .Dv
  else .error (.UnknownMode mode)

/-- Encode an operating mode to a CI-V `(mode_byte, filter_byte)` pair
(`OperatingMode::to_civ_bytes`). -/
def OperatingMode.to_civ_bytes : OperatingMode → Nat × Nat
  | .Fm => (MODE_FM, FILTER_WIDE)
  | .FmN => (MODE_FM, FILTER_NARROW)
  | .Am => (MODE_AM, FILTER_WIDE)
  | .AmN => (MODE_AM, FILTER_NARROW)
  | .Dv => (MODE_DV, FILTER_WIDE)

/-! ## Command model (`civ-protocol/src/command.rs`) -/

/-! Command bytes (`cmd` module). -/
namespace cmd
def READ_FREQ : Nat := 0x03
def SET_FREQ : Nat := 0x05
def READ_MODE : Nat := 0x04
def SET_MODE : Nat := 0x06
def VFO_MODE : Nat := 0x07
def LEVEL : Nat := 0x14
def METER : Nat := 0x15
def VARIOUS : Nat := 0x16
def TONE : Nat := 0x1B
def READ_OFFSET : Nat := 0x0C
def SET_OFFSET : Nat := 0x0D
def READ_DUPLEX : Nat := 0x0F
def POWER : Nat := 0x18
def READ_ID : Nat := 0x19
def READ_GPS : Nat := 0x23
end cmd

/-! VFO sub-commands (`vfo_sub` module). -/
namespace vfo_sub
def VFO_A : Nat := 0xD0
def VFO_B : Nat := 0xD1
end vfo_sub

/-! Power sub-commands (`power_sub` module). -/
namespace power_sub
def OFF : Nat := 0x00
def ON : Nat := 0x01
end power_sub

/-! Tone sub-commands (`tone_sub` module). -/
namespace tone_sub
def REPEATER_TONE : Nat := 0x00
def TSQL_TONE : Nat := 0x01
def DTCS : Nat := 0x02
end tone_sub

/-- A CI-V command (`Command`). Rust `u8`/`u16`/`u64` arguments become `Nat`;
casts that can truncate in Rust are modelled with explicit `%` below. -/
inductive Command where
  | ReadFrequency : Command
  | SetFrequency : Frequency → Command
  | ReadMode : Command
  | SetMode : OperatingMode → Command
  | SelectVfoA : Command
  | SelectVfoB : Command
  | ReadLevel : Nat → Command
  | SetLevel : Nat → Nat → Command
  | ReadMeter : Nat → Command
  | PowerOn : Command
  | PowerOff : Command
  | ReadTransceiverId : Command
  | ReadVarious : Nat → Command
  | ReadDuplex : Command
  | ReadOffset : Command
  | ReadTone : Nat → Command
  | SetDuplex : Nat → Command
  | SetOffset : Nat → Command
  | SetVarious : Nat → Nat → Command
  | SetTone : Nat → Nat → Command
  | SetDtcs : Nat → Nat → Nat → Command
  | ReadGpsPosition : Command
deriving Repr, DecidableEq

/-- BCD pair of a value already reduced below 100, as produced by the Rust
expression `((v / 10) << 4) | (v % 10)` on `u8` (the shift wraps mod 256,
the or has disjoint bits). -/
def bcdPairByte (v : Nat) : Nat := (v / 10) * 16 % 256 + v % 10

/-- Convert a command into a frame ready for transmission
(`Command::to_frame`). -/
def Command.to_frame : Command → Except CivError Frame
  | .ReadFrequency => .ok (Frame.new cmd.READ_FREQ none [])
  | .SetFrequency freq => do
      let bytes ← freq.to_civ_bytes
      pure (Frame.new cmd.SET_FREQ none bytes)
  | .ReadMode => .ok (Frame.new cmd.READ_MODE none [])
  | .SetMode mode =>
      let mf := mode.to_civ_bytes
      .ok (Frame.new cmd.SET_MODE none [mf.1, mf.2])
  | .SelectVfoA => .ok (Frame.new cmd.VFO_MODE (some vfo_sub.VFO_A) [])
  | .SelectVfoB => .ok (Frame.new cmd.VFO_MODE (some vfo_sub.VFO_B) [])
  | .ReadLevel sub => .ok (Frame.new cmd.LEVEL (some sub) [])
  | .SetLevel sub value => do
      let data ← encode_bcd_be value 2
      pure (Frame.new cmd.LEVEL (some sub) data)
  | .ReadMeter sub => .ok (Frame.new cmd.METER (some sub) [])
  | .PowerOn => .ok (Frame.new cmd.POWER (some power_sub.ON) [])
  | .PowerOff => .ok (Frame.new cmd.POWER (some power_sub.OFF) [])
  | .ReadTransceiverId => .ok (Frame.new cmd.READ_ID (some 0x00) [])
  | .ReadVarious sub => .ok (Frame.new cmd.VARIOUS (some sub) [])
  | .ReadDuplex => .ok (Frame.new cmd.READ_DUPLEX none [])
  | .ReadOffset => .ok (Frame.new cmd.READ_OFFSET none [])
  | .ReadTone sub => .ok (Frame.new cmd.TONE (some sub) [])
  | .SetDuplex dir => .ok (Frame.new cmd.READ_DUPLEX (some dir) [])
  | .SetOffset hz => do
      let data ← encode_bcd_le (hz / 100) 3
      pure (Frame.new cmd.SET_OFFSET none data)
  | .SetVarious sub value => .ok (Frame.new cmd.VARIOUS (some sub) [value])
  | .SetTone sub freqTenths =>
      let ht := freqTenths / 100 % 256
      let ut := freqTenths % 100
      .ok (Frame.new cmd.TONE (some sub) [0x00, bcdPairByte ht, bcdPairByte ut])
  | .SetDtcs txPol rxPol code =>
      let polarity := txPol * 16 % 256 + rxPol % 16
      let first := code / 100 % 256
      let secondThird := code % 100
      .ok (Frame.new cmd.TONE (some tone_sub.DTCS)
        [polarity, bcdPairByte first, bcdPairByte secondThird])
  | .ReadGpsPosition => .ok (Frame.new cmd.READ_GPS (some 0x00) [])

/-- Command byte of a command (`Command::command_byte`). -/
def Command.command_byte : Command → Nat
  | .ReadFrequency => cmd.READ_FREQ
  | .SetFrequency _ => cmd.SET_FREQ
  | .ReadMode => cmd.READ_MODE
  | .SetMode _ => cmd.SET_MODE
  | .SelectVfoA | .SelectVfoB => cmd.VFO_MODE
  | .ReadLevel _ | .SetLevel _ _ => cmd.LEVEL
  | .ReadMeter _ => cmd.METER
  | .PowerOn | .PowerOff => cmd.POWER
  | .ReadTransceiverId => cmd.READ_ID
  | .ReadVarious _ | .SetVarious _ _ => cmd.VARIOUS
  | .ReadDuplex | .SetDuplex _ => cmd.READ_DUPLEX
  | .ReadOffset => cmd.READ_OFFSET
  | .SetOffset _ => cmd.SET_OFFSET
  | .ReadTone _ | .SetTone _ _ | .SetDtcs _ _ _ => cmd.TONE
  | .ReadGpsPosition => cmd.READ_GPS

/-! ## Response model (`civ-protocol/src/response.rs`) -/

/-- Raw GPS position decoded from the 27-byte fix payload
(`RawGpsPosition`). -/
structure RawGpsPosition where
  lat_deg : Nat
  lat_min : Nat
  lat_min_frac : Nat
  lat_north : Bool
  lon_deg : Nat
  lon_min : Nat
  lon_min_frac : Nat
  lon_east : Bool
  alt_tenths : Nat
  alt_negative : Bool
  course : Nat
  speed_tenths : Nat
  utc_year : Nat
  utc_month : Nat
  utc_day : Nat
  utc_hour : Nat
  utc_minute : Nat
  utc_second : Nat
deriving Repr, DecidableEq

/-- A typed response from the radio (`Response`). The legacy crate's
`Response` is the same type minus `GpsPosition`. -/
inductive Response where
  | Ok : Response
  | Ng : Response
  | Frequency : Frequency → Response
  | Mode : OperatingMode → Response
  | Level : Nat → Nat → Response
  | Meter : Nat → Nat → Response
  | TransceiverId : Nat → Response
  | Various : Nat → Nat → Response
  | Duplex : Nat → Response
  | Offset : Frequency → Response
  | ToneFrequency : Nat → Nat → Response
  | DtcsCode : Nat → Nat → Nat → Response
  | GpsPosition : RawGpsPosition → Response
deriving Repr, DecidableEq

/-- Payload reassembled as sub-command byte (when present) followed by the
data bytes, as built by the `Vec::push`/`extend_from_slice` preludes of the
frequency and offset decoders. -/
def Frame.payloadBytes (f : Frame) : List Nat :=
  (match f.sub_command with | some sc => [sc] | none => []) ++ f.data

/-- Parse a frequency response frame (`parse_frequency_response`). -/
def parse_frequency_response (frame : Frame) : Except CivError Response :=
  let freq_bytes := frame.payloadBytes
  if freq_bytes.length ≠ 5 then .error .InvalidFrame
  else do
    let freq ← Frequency.from_civ_bytes freq_bytes
    pure (.Frequency freq)

/-- Parse a mode response frame (`parse_mode_response`). -/
def parse_mode_response (frame : Frame) : Except CivError Response := do
  let mode_byte ← match frame.sub_command with
    | some b => pure b
    | none => .error CivError.InvalidFrame
  let filter_byte ← match frame.data.head? with
    | some b => pure b
    | none => .error CivError.InvalidFrame
  let mode ← OperatingMode.from_civ_bytes mode_byte filter_byte
  pure (.Mode mode)

/-- Parse a level response frame (`parse_level_response`). -/
def parse_level_response (frame : Frame) (expected_sub : Nat) :
    Except CivError Response := do
  let sub ← match frame.sub_command with
    | some b => pure b
    | none => .error CivError.InvalidFrame
  if sub ≠ expected_sub then .error .InvalidFrame
  else if frame.data.length ≠ 2 then .error .InvalidFrame
  else do
    let value ← decode_bcd_be frame.data
    pure (.Level sub value)

/-- Parse a meter response frame (`parse_meter_response`). -/
def parse_meter_response (frame : Frame) (expected_sub : Nat) :
    Except CivError Response := do
  let sub ← match frame.sub_command with
    | some b => pure b
    | none => .error CivError.InvalidFrame
  if sub ≠ expected_sub then .error .InvalidFrame
  else if frame.data.length ≠ 2 then .error .InvalidFrame
  else do
    let value ← decode_bcd_be frame.data
    pure (.Meter sub value)

/-- Parse a transceiver-ID response frame (`parse_transceiver_id_response`). -/
def parse_transceiver_id_response (frame : Frame) : Except CivError Response :=
  match frame.sub_command with
  | some id => .ok (.TransceiverId id)
  | none => .error .InvalidFrame

/-- Parse a various-function response frame (`parse_various_response`). -/
def parse_various_response (frame : Frame) (expected_sub : Nat) :
    Except CivError Response := do
  let sub ← match frame.sub_command with
    | some b => pure b
    | none => .error CivError.InvalidFrame
  if sub ≠ expected_sub then .error .InvalidFrame
  else match frame.data.head? with
    | some value => pure (.Various sub value)
    | none => .error .InvalidFrame

/-- Parse a duplex direction response frame (`parse_duplex_response`). -/
def parse_duplex_response (frame : Frame) : Except CivError Response :=
  match frame.sub_command with
  | some duplex => .ok (.Duplex duplex)
  | none => .error .InvalidFrame

/-- Parse a duplex offset response frame, civ-protocol crate version
(`parse_offset_response` in civ-protocol/src/response.rs): exactly 3 payload
bytes of little-endian BCD in 100 Hz units, multiplied by 100. -/
def parse_offset_response (frame : Frame) : Except CivError Response :=
  let offset_bytes := frame.payloadBytes
  if offset_bytes.length ≠ 3 then .error .InvalidFrame
  else do
    let raw ← decode_bcd_le offset_bytes
    let freq ← Frequency.from_hz (raw * 100)
    pure (.Offset freq)

/-- Parse a tone/DTCS response frame (`parse_tone_response`). -/
def parse_tone_response (frame : Frame) (expected_sub : Nat) :
    Except CivError Response := do
  let sub ← match frame.sub_command with
    | some b => pure b
    | none => .error CivError.InvalidFrame
  if sub ≠ expected_sub then .error .InvalidFrame
  else if frame.data.length ≠ 3 then .error .InvalidFrame
  else if sub = 0x00 ∨ sub = 0x01 then do
    let ht ← decode_bcd_be [frame.data.getD 1 0]
    let ut ← decode_bcd_be [frame.data.getD 2 0]
    pure (.ToneFrequency sub (ht * 100 + ut))
  else if sub = 0x02 then do
    let polarity_byte := frame.data.getD 0 0
    let tx_pol := polarity_byte / 16 % 16
    let rx_pol := polarity_byte % 16
    let first ← decode_bcd_be [frame.data.getD 1 0]
    let secondThird ← decode_bcd_be [frame.data.getD 2 0]
    pure (.DtcsCode tx_pol rx_pol (first * 100 + secondThird))
  else .error .InvalidFrame

/-- High nibble of a byte (`hi`). -/
def hi (b : Nat) : Nat := b / 16 % 16

/-- Low nibble of a byte (`lo`). -/
def lo (b : Nat) : Nat := b % 16

/-- Parse a GPS position response frame (`parse_gps_position_response`). -/
def parse_gps_position_response (frame : Frame) : Except CivError Response := do
  let sub ← match frame.sub_command with
    | some b => pure b
    | none => .error CivError.InvalidFrame
  if sub ≠ 0x00 then .error .InvalidFrame
  else if frame.data.length ≠ 27 then .error .InvalidFrame
  else
    let d := fun i => frame.data.getD i 0
    let lat_deg := hi (d 0) * 10 + lo (d 0)
    let lat_min := hi (d 1) * 10 + lo (d 1)
    let lat_min_frac := hi (d 2) * 100 + lo (d 2) * 10 + hi (d 3)
    let lat_north := lo (d 4) == 1
    let lon_deg := lo (d 5) * 100 + hi (d 6) * 10 + lo (d 6)
    let lon_min := hi (d 7) * 10 + lo (d 7)
    let lon_min_frac := hi (d 8) * 100 + lo (d 8) * 10 + hi (d 9)
    let lon_east := lo (d 10) == 1
    let alt_tenths := hi (d 11) * 100000 + lo (d 11) * 10000 + hi (d 12) * 1000
      + lo (d 12) * 100 + hi (d 13) * 10 + lo (d 13)
    let alt_negative := lo (d 14) == 1
    let course := hi (d 15) * 100 + lo (d 15) * 10 + hi (d 16)
    let speed_tenths := hi (d 17) * 100000 + lo (d 17) * 10000 + hi (d 18) * 1000
      + lo (d 18) * 100 + hi (d 19) * 10 + lo (d 19)
    let utc_year := hi (d 20) * 1000 + lo (d 20) * 100 + hi (d 21) * 10 + lo (d 21)
    let utc_month := hi (d 22) * 10 + lo (d 22)
    let utc_day := hi (d 23) * 10 + lo (d 23)
    let utc_hour := hi (d 24) * 10 + lo (d 24)
    let utc_minute := hi (d 25) * 10 + lo (d 25)
    let utc_second := hi (d 26) * 10 + lo (d 26)
    pure (.GpsPosition ⟨lat_deg, lat_min, lat_min_frac, lat_north, lon_deg,
      lon_min, lon_min_frac, lon_east, alt_tenths, alt_negative, course,
      speed_tenths, utc_year, utc_month, utc_day, utc_hour, utc_minute,
      utc_second⟩)

/-- Parse a response frame using the originating command as context
(`parse_response` in civ-protocol/src/response.rs). OK/NG are intercepted
first, regardless of command. -/
def parse_response (frame : Frame) (command : Command) : Except CivError Response :=
  if frame.isOkFrame then .ok .Ok
  else if frame.isNgFrame then .ok .Ng
  else match command with
    | .ReadFrequency => parse_frequency_response frame
    | .SetFrequency _ =>
        if frame.command = cmd.SET_FREQ ∨ frame.command = cmd.READ_FREQ then
          parse_frequency_response frame
        else .error .InvalidFrame
    | .ReadMode => parse_mode_response frame
    | .SetMode _ => .ok .Ok
    | .SelectVfoA | .SelectVfoB => .ok .Ok
    | .ReadLevel sub => parse_level_response frame sub
    | .SetLevel _ _ => .ok .Ok
    | .ReadMeter sub => parse_meter_response frame sub
    | .PowerOn | .PowerOff => .ok .Ok
    | .ReadTransceiverId => parse_transceiver_id_response frame
    | .ReadVarious sub => parse_various_response frame sub
    | .ReadDuplex => parse_duplex_response frame
    | .ReadOffset => parse_offset_response frame
    | .ReadTone sub => parse_tone_response frame sub
    | .SetDuplex _ => .ok .Ok
    | .SetOffset _ => .ok .Ok
    | .SetVarious _ _ => .ok .Ok
    | .SetTone _ _ => .ok .Ok
    | .SetDtcs _ _ _ => .ok .Ok
    | .ReadGpsPosition => parse_gps_position_response frame

/-! ## Legacy offset decoder (`src/response.rs`) -/

namespace Legacy

/-- Parse a duplex offset response frame, legacy crate version
(`parse_offset_response` in src/response.rs): exactly 5 payload bytes of
little-endian BCD, decoded directly as Hz like a frequency. -/
def parse_offset_response (frame : Frame) : Except CivError Response :=
  let freq_bytes := frame.payloadBytes
  if freq_bytes.length ≠ 5 then .error .InvalidFrame
  else do
    let freq ← Frequency.from_civ_bytes freq_bytes
    pure (.Offset freq)

end Legacy

/-! ## Session response reader (`src/radio.rs`)

`Radio::read_response` loops: fill the buffer from the transport, try to
parse one frame, drain the consumed prefix, skip echo frames (dst not the
controller) and unsolicited frames (command byte neither OK, NG nor the
expected byte), return the first matching frame, and fail with `Timeout`
when the deadline passes. The transport is modelled as the list of chunks
successive `fill_buf` calls deliver (a chunk may be empty, matching a read
that timed out and added nothing); an exhausted chunk list models the
deadline passing, at which point the reader fails with `Timeout`. An
`Err` from `Frame::parse` propagates out of the loop through the `?`
operator. -/
def read_response (controllerAddr expectedCmd : Nat) :
    List Nat → List (List Nat) → Except CivError Frame
  | _, [] => .error .Timeout
  | buf, chunk :: rest =>
    let buf2 := buf ++ chunk
    match Frame.parse buf2 with
    | .error e => .error e
    | .ok none => read_response controllerAddr expectedCmd buf2 rest
    | .ok (some (frame, consumed)) =>
      let buf3 := buf2.drop consumed
      if frame.dst ≠ controllerAddr then
        read_response controllerAddr expectedCmd buf3 rest
      else if frame.command = OK ∨ frame.command = NG ∨ frame.command = expectedCmd then
        .ok frame
      else
        read_response controllerAddr expectedCmd buf3 rest

/-! ## Helper lemmas -/

/-- A successfully decoded BCD byte holds a value below 100. -/
theorem decode_bcd_byte_lt {b d : Nat} (h : decode_bcd_byte b = .ok d) : d < 100 := by
  simp only [decode_bcd_byte] at h
  split at h
  · exact absurd h (by simp)
  · rename_i hcond
    push_neg at hcond
    simp only [Except.ok.injEq] at h
    omega

/-- Encoding a value below 100 succeeds and decodes back to the value. -/
theorem encode_then_decode_byte {p : Nat} (hp : p ≤ 99) :
    ∃ b, encode_bcd_byte p = .ok b ∧ decode_bcd_byte b = .ok p := by
  refine ⟨p / 10 * 16 + p % 10, ?_, ?_⟩
  · unfold encode_bcd_byte
    rw [if_neg (by omega)]
  · unfold decode_bcd_byte
    have h1 : (p / 10 * 16 + p % 10) / 16 = p / 10 := by omega
    have h2 : (p / 10 * 16 + p % 10) % 16 = p % 10 := by omega
    rw [h1, h2, if_neg (by omega)]
    exact congrArg Except.ok (by omega)

/-- Little-endian BCD encoding always succeeds, with the requested width. -/
theorem encode_bcd_le_ok (value len : Nat) :
    ∃ bs, encode_bcd_le value len = .ok bs ∧ bs.length = len := by
  induction len generalizing value with
  | zero => exact ⟨[], rfl, rfl⟩
  | succ n ih =>
    obtain ⟨b, hb, _⟩ := encode_then_decode_byte (p := value % 100) (by omega)
    obtain ⟨bs, hbs, hlen⟩ := ih (value / 100)
    refine ⟨b :: bs, ?_, by simp [hlen]⟩
    simp [encode_bcd_le, hb, hbs, Bind.bind, Except.bind, pure, Except.pure]

/-- Big-endian BCD encoding always succeeds, with the requested width. -/
theorem encode_bcd_be_ok (value len : Nat) :
    ∃ bs, encode_bcd_be value len = .ok bs ∧ bs.length = len := by
  induction len generalizing value with
  | zero => exact ⟨[], rfl, rfl⟩
  | succ n ih =>
    obtain ⟨b, hb, _⟩ := encode_then_decode_byte (p := value % 100) (by omega)
    obtain ⟨bs, hbs, hlen⟩ := ih (value / 100)
    refine ⟨bs ++ [b], ?_, by simp [hlen]⟩
    simp [encode_bcd_be, hb, hbs, Bind.bind, Except.bind, pure, Except.pure]

/-- A successfully decoded little-endian BCD sequence is below `100 ^ length`. -/
theorem decode_bcd_le_lt {bs : List Nat} {v : Nat}
    (h : decode_bcd_le bs = .ok v) : v < 100 ^ bs.length := by
  induction bs generalizing v with
  | nil =>
    simp only [decode_bcd_le, Except.ok.injEq] at h
    simp [← h]
  | cons b rest ih =>
    simp only [decode_bcd_le] at h
    cases hrest : decode_bcd_le rest with
    | error e => rw [hrest] at h; exact absurd h (by simp [Bind.bind, Except.bind])
    | ok w =>
      rw [hrest] at h
      cases hbyte : decode_bcd_byte b with
      | error e =>
        rw [hbyte] at h
        exact absurd h (by simp [Bind.bind, Except.bind])
      | ok d =>
        rw [hbyte] at h
        simp only [Bind.bind, Except.bind, pure, Except.pure, Except.ok.injEq] at h
        have hw := ih hrest
        have hd := decode_bcd_byte_lt hbyte
        have : w * 100 + d < 100 ^ (rest.length + 1) := by
          rw [pow_succ]
          nlinarith
        simpa [← h, List.length_cons] using this

/-- Little-endian BCD round-trip for values that fit the width. -/
theorem encode_decode_bcd_le {v l : Nat} (h : v < 100 ^ l) :
    ∃ bs, encode_bcd_le v l = .ok bs ∧ bs.length = l ∧
      decode_bcd_le bs = .ok v := by
  induction l generalizing v with
  | zero =>
    refine ⟨[], rfl, rfl, ?_⟩
    simp only [pow_zero, Nat.lt_one_iff] at h
    simp [decode_bcd_le, h]
  | succ n ih =>
    obtain ⟨b, hb, hdb⟩ := encode_then_decode_byte (p := v % 100) (by omega)
    obtain ⟨bs, hbs, hlen, hdbs⟩ :=
      ih (v := v / 100) (by rw [pow_succ'] at h; exact Nat.div_lt_of_lt_mul h)
    refine ⟨b :: bs, ?_, by simp [hlen], ?_⟩
    · simp [encode_bcd_le, hb, hbs, Bind.bind, Except.bind, pure, Except.pure]
    · simp only [decode_bcd_le, hdbs, hdb, Bind.bind, Except.bind, pure, Except.pure]
      exact congrArg Except.ok (by omega)

/-! ## Claim C8 -/

/-- C8: for every `v` with `0 ≤ v ≤ 9_999_999_999`, encoding `v` as 5
little-endian BCD bytes succeeds and decoding them back yields `v`, and
hence the frequency CI-V byte round-trip
`Frequency::from_civ_bytes(Frequency::from_hz(v).to_civ_bytes())` returns
the frequency itself. -/
theorem bcd_frequency_roundtrip (v : Nat) (h : v ≤ 9999999999) :
    ∃ bytes, encode_bcd_le v 5 = .ok bytes ∧ decode_bcd_le bytes = .ok v ∧
      Frequency.from_hz v = .ok ⟨v⟩ ∧
      Frequency.to_civ_bytes ⟨v⟩ = .ok bytes ∧
      Frequency.from_civ_bytes bytes = .ok ⟨v⟩ := by
  have hpow : (100 : Nat) ^ 5 = 10000000000 := by norm_num
  obtain ⟨bs, henc, _, hdec⟩ := @encode_decode_bcd_le v 5 (by omega)
  have hfh : Frequency.from_hz v = .ok ⟨v⟩ := by
    unfold Frequency.from_hz FREQ_MAX
    rw [if_neg (by omega)]
  refine ⟨bs, henc, hdec, hfh, ?_, ?_⟩
  · simpa [Frequency.to_civ_bytes] using henc
  · simp [Frequency.from_civ_bytes, hdec, hfh, Bind.bind, Except.bind]

/-- Witness for C8 at `v = 145_000_000`. -/
theorem bcd_frequency_roundtrip_witness :
    145000000 ≤ 9999999999 ∧
    ∃ bytes, encode_bcd_le 145000000 5 = .ok bytes ∧
      decode_bcd_le bytes = .ok 145000000 ∧
      Frequency.from_hz 145000000 = .ok ⟨145000000⟩ ∧
      Frequency.to_civ_bytes ⟨145000000⟩ = .ok bytes ∧
      Frequency.from_civ_bytes bytes = .ok ⟨145000000⟩ :=
  ⟨by norm_num, bcd_frequency_roundtrip 145000000 (by norm_num)⟩

/-! ## Claim C6 -/

/-- C6: for every frame and every originating command, `parse_response`
returns `Ok` on a `0xFB` frame and `Ng` on a `0xFA` frame, before and
regardless of any command-specific dispatch. -/
theorem parse_response_ok_ng (frame : Frame) (command : Command) :
    (frame.command = OK → parse_response frame command = .ok .Ok) ∧
    (frame.command = NG → parse_response frame command = .ok .Ng) := by
  constructor
  · intro h
    simp [parse_response, Frame.isOkFrame, h]
  · intro h
    simp [parse_response, Frame.isOkFrame, Frame.isNgFrame, h, OK, NG]

/-- Witness for C6 on concrete OK and NG frames. -/
theorem parse_response_ok_ng_witness :
    parse_response ⟨0xE0, 0xB4, 0xFB, none, []⟩ .ReadFrequency = .ok .Ok ∧
    parse_response ⟨0xE0, 0xB4, 0xFA, none, []⟩ (.ReadTone 0x02) = .ok .Ng :=
  ⟨(parse_response_ok_ng ⟨0xE0, 0xB4, 0xFB, none, []⟩ .ReadFrequency).1 (by decide),
   (parse_response_ok_ng ⟨0xE0, 0xB4, 0xFA, none, []⟩ (.ReadTone 0x02)).2 (by decide)⟩

/-! ## Claim C10 -/

/-- C10: for every set-type command and every frame whose command byte is
neither OK (0xFB) nor NG (0xFA), `parse_response` returns `Response::Ok`
unconditionally — the frame content is not validated for these commands. -/
theorem parse_response_set_commands (frame : Frame)
    (h1 : frame.command ≠ OK) (h2 : frame.command ≠ NG) :
    (∀ m, parse_response frame (.SetMode m) = .ok .Ok) ∧
    parse_response frame .SelectVfoA = .ok .Ok ∧
    parse_response frame .SelectVfoB = .ok .Ok ∧
    (∀ sub v, parse_response frame (.SetLevel sub v) = .ok .Ok) ∧
    parse_response frame .PowerOn = .ok .Ok ∧
    parse_response frame .PowerOff = .ok .Ok ∧
    (∀ dir, parse_response frame (.SetDuplex dir) = .ok .Ok) ∧
    (∀ hz, parse_response frame (.SetOffset hz) = .ok .Ok) ∧
    (∀ sub v, parse_response frame (.SetVarious sub v) = .ok .Ok) ∧
    (∀ sub t, parse_response frame (.SetTone sub t) = .ok .Ok) ∧
    (∀ a b c, parse_response frame (.SetDtcs a b c) = .ok .Ok) := by
  have hok : frame.isOkFrame = false := by simp [Frame.isOkFrame, h1]
  have hng : frame.isNgFrame = false := by simp [Frame.isNgFrame, h2]
  refine ⟨fun m => ?_, ?_, ?_, fun sub v => ?_, ?_, ?_, fun dir => ?_,
    fun hz => ?_, fun sub v => ?_, fun sub t => ?_, fun a b c => ?_⟩ <;>
    simp [parse_response, hok, hng]

/-- Witness for C10 on a concrete frame with an arbitrary command byte,
sub-command, and data that would not pass any validation. -/
theorem parse_response_set_commands_witness :
    parse_response ⟨0xE0, 0xB4, 0x42, some 0x99, [0xAB]⟩ (.SetMode .Fm) = .ok .Ok ∧
    parse_response ⟨0xE0, 0xB4, 0x42, some 0x99, [0xAB]⟩ .SelectVfoA = .ok .Ok ∧
    parse_response ⟨0xE0, 0xB4, 0x42, some 0x99, [0xAB]⟩ (.SetLevel 0x01 5) = .ok .Ok ∧
    parse_response ⟨0xE0, 0xB4, 0x42, some 0x99, [0xAB]⟩ (.SetDtcs 1 0 754) = .ok .Ok := by
  have h := parse_response_set_commands ⟨0xE0, 0xB4, 0x42, some 0x99, [0xAB]⟩
    (by decide) (by decide)
  exact ⟨h.1 .Fm, h.2.1, h.2.2.2.1 0x01 5, h.2.2.2.2.2.2.2.2.2.2 1 0 754⟩

/-! ## Claim C3 -/

/-- C3 counterexample: the civ-protocol `parse_offset_response` rejects a
duplex-offset response whose payload (sub-command byte plus data) is 5 bytes
long — the length the claim says is required — and instead accepts exactly 3
payload bytes, decoding them in 100 Hz units. The 5-payload-byte frame
below encodes 600 kHz in the claimed format yet fails with `InvalidFrame`. -/
theorem parse_offset_five_bytes_counterexample :
    parse_offset_response ⟨0xE0, 0xB4, 0x0C, some 0x00, [0x00, 0x60, 0x00, 0x00]⟩ =
      .error .InvalidFrame ∧
    parse_offset_response ⟨0xE0, 0xB4, 0x0C, some 0x00, [0x60, 0x00]⟩ =
      .ok (.Offset ⟨600000⟩) := by decide

/-- C3 amended: the civ-protocol duplex-offset decoder requires exactly 3
payload bytes (the sub-command byte counted as the first BCD byte), decoded
as little-endian BCD in 100 Hz units and multiplied by 100 to Hz; any other
payload length fails with `InvalidFrame`. The legacy crate's decoder
(src/response.rs) requires exactly 5 payload bytes decoded as little-endian
BCD Hz, as the claim stated. -/
theorem parse_offset_spec (frame : Frame) :
    (frame.payloadBytes.length ≠ 3 →
      parse_offset_response frame = .error .InvalidFrame) ∧
    (∀ raw, frame.payloadBytes.length = 3 →
      decode_bcd_le frame.payloadBytes = .ok raw →
      parse_offset_response frame = .ok (.Offset ⟨raw * 100⟩)) ∧
    (frame.payloadBytes.length ≠ 5 →
      Legacy.parse_offset_response frame = .error .InvalidFrame) ∧
    (∀ hz, frame.payloadBytes.length = 5 →
      decode_bcd_le frame.payloadBytes = .ok hz →
      Legacy.parse_offset_response frame = .ok (.Offset ⟨hz⟩)) := by
  refine ⟨?_, ?_, ?_, ?_⟩
  · intro h
    simp [parse_offset_response, h]
  · intro raw hlen hdec
    have hraw := decode_bcd_le_lt hdec
    rw [hlen] at hraw
    have hpow : (100 : Nat) ^ 3 = 1000000 := by norm_num
    have hfh : Frequency.from_hz (raw * 100) = .ok ⟨raw * 100⟩ := by
      unfold Frequency.from_hz FREQ_MAX
      rw [if_neg (by omega)]
    simp [parse_offset_response, hlen, hdec, hfh, Bind.bind, Except.bind,
      pure, Except.pure]
  · intro h
    simp [Legacy.parse_offset_response, h]
  · intro hz hlen hdec
    have hhz := decode_bcd_le_lt hdec
    rw [hlen] at hhz
    have hpow : (100 : Nat) ^ 5 = 10000000000 := by norm_num
    have hfh : Frequency.from_hz hz = .ok ⟨hz⟩ := by
      unfold Frequency.from_hz FREQ_MAX
      rw [if_neg (by omega)]
    simp [Legacy.parse_offset_response, Frequency.from_civ_bytes, hlen, hdec,
      hfh, Bind.bind, Except.bind, pure, Except.pure]

/-- Witness for the amended C3: a 3-payload-byte offset response decodes to
5 MHz in the civ-protocol crate, and the same value as a 5-payload-byte
response decodes in the legacy crate. -/
theorem parse_offset_spec_witness :
    parse_offset_response ⟨0xE0, 0xB4, 0x0C, some 0x00, [0x00, 0x05]⟩ =
      .ok (.Offset ⟨5000000⟩) ∧
    Legacy.parse_offset_response ⟨0xE0, 0xB4, 0x0C, some 0x00, [0x00, 0x00, 0x05, 0x00]⟩ =
      .ok (.Offset ⟨5000000⟩) :=
  ⟨(parse_offset_spec ⟨0xE0, 0xB4, 0x0C, some 0x00, [0x00, 0x05]⟩).2.1
      50000 (by decide) (by decide),
   (parse_offset_spec ⟨0xE0, 0xB4, 0x0C, some 0x00, [0x00, 0x00, 0x05, 0x00]⟩).2.2.2
      5000000 (by decide) (by decide)⟩

/-! ## Claim C9 -/

/-- Two-byte big-endian BCD encoding only depends on the value modulo
10000: values too wide for the width are silently truncated. -/
theorem encode_bcd_be_two_mod (v : Nat) :
    encode_bcd_be v 2 = encode_bcd_be (v % 10000) 2 := by
  have h1 : v % 10000 % 100 = v % 100 := by omega
  have h2 : v % 10000 / 100 % 100 = v / 100 % 100 := by omega
  simp only [encode_bcd_be, h1, h2]

/-- C9: `Command::to_frame` never returns an error — every numeric encoding
takes each digit pair modulo 100, so over-wide values (for example a
`SetLevel` value above 9999) are silently truncated to the requested width
rather than rejected. -/
theorem to_frame_never_fails :
    (∀ c : Command, ∃ f, Command.to_frame c = .ok f) ∧
    (∀ sub v, Command.to_frame (.SetLevel sub v) =
      Command.to_frame (.SetLevel sub (v % 10000))) := by
  constructor
  · intro c
    cases c
    case SetFrequency freq =>
      obtain ⟨bs, hbs, _⟩ := encode_bcd_le_ok freq.hz 5
      exact ⟨Frame.new cmd.SET_FREQ none bs, by
        simp [Command.to_frame, Frequency.to_civ_bytes, hbs,
          Bind.bind, Except.bind, pure, Except.pure]⟩
    case SetLevel sub v =>
      obtain ⟨bs, hbs, _⟩ := encode_bcd_be_ok v 2
      exact ⟨Frame.new cmd.LEVEL (some sub) bs, by
        simp [Command.to_frame, hbs, Bind.bind, Except.bind,
          pure, Except.pure]⟩
    case SetOffset hz =>
      obtain ⟨bs, hbs, _⟩ := encode_bcd_le_ok (hz / 100) 3
      exact ⟨Frame.new cmd.SET_OFFSET none bs, by
        simp [Command.to_frame, hbs, Bind.bind, Except.bind,
          pure, Except.pure]⟩
    all_goals exact ⟨_, rfl⟩
  · intro sub v
    simp [Command.to_frame, encode_bcd_be_two_mod v]

/-! ## Frame codec lemmas -/

/-- A buffer that starts with two preamble bytes synchronizes at offset 0. -/
theorem findPreamble_cons (rest : List Nat) :
    findPreamble (PREAMBLE :: PREAMBLE :: rest) = some 0 := by
  simp [findPreamble]

/-- The terminator scan finds nothing in a terminator-free buffer. -/
theorem findIdx_eq_none {t : Nat} {l : List Nat} (h : t ∉ l) :
    findIdx t l = none := by
  induction l with
  | nil => rfl
  | cons a rest ih =>
    simp only [List.mem_cons, not_or] at h
    have ha : ¬a = t := fun hc => h.1 hc.symm
    simp [findIdx, ha, ih h.2]

/-- The terminator scan finds the first terminator after a clean prefix. -/
theorem findIdx_append_cons {t : Nat} {l r : List Nat} (h : t ∉ l) :
    findIdx t (l ++ t :: r) = some l.length := by
  induction l with
  | nil => simp [findIdx]
  | cons a rest ih =>
    simp only [List.mem_cons, not_or] at h
    have ha : ¬a = t := fun hc => h.1 hc.symm
    simp [findIdx, ha, ih h.2]

/-- A buffer with no two consecutive preamble bytes never synchronizes. -/
theorem findPreamble_eq_none {buf : List Nat}
    (h : ∀ i, i < buf.length - 1 →
      ¬(buf.getD i 0 = PREAMBLE ∧ buf.getD (i + 1) 0 = PREAMBLE)) :
    findPreamble buf = none := by
  induction buf with
  | nil => rfl
  | cons a rest ih =>
    cases rest with
    | nil => rfl
    | cons b rest2 =>
      have h0 := h 0 (by simp)
      simp only [List.getD_cons_zero, List.getD_cons_succ] at h0
      rw [findPreamble, if_neg h0]
      have hnone : findPreamble (b :: rest2) = none := by
        apply ih
        intro i hi
        have := h (i + 1) (by simp at hi ⊢; omega)
        simpa [List.getD_cons_succ] using this
      simp [hnone]

/-! ## Claim C1 -/

/-- C1 counterexample: a frame constructed with no sub-command and a single
data byte does not survive the round-trip — the parser reinterprets the
lone payload byte as a sub-command (the protocol's ambiguity rule), so the
parsed frame differs from the constructed one. -/
theorem frame_roundtrip_counterexample :
    Frame.parse (Frame.toBytes ⟨0xB4, 0xE0, 0x03, none, [0x01]⟩) =
      .ok (some (⟨0xB4, 0xE0, 0x03, some 0x01, []⟩, 7)) ∧
    (⟨0xB4, 0xE0, 0x03, some 0x01, []⟩ : Frame) ≠
      ⟨0xB4, 0xE0, 0x03, none, [0x01]⟩ := by decide

/-- C1 amended: parsing a frame's own serialization succeeds and returns the
identical frame with a consumed count equal to the serialization's length,
provided no field byte equals the terminator EOM, a frame with data bytes
carries a sub-command (otherwise data[0] is reinterpreted as the
sub-command), and OK/NG frames carry neither sub-command nor data. -/
theorem frame_roundtrip (f : Frame)
    (hdst : f.dst ≠ EOM) (hsrc : f.src ≠ EOM) (hcmd : f.command ≠ EOM)
    (hsub : ∀ s, f.sub_command = some s → s ≠ EOM)
    (hdata : EOM ∉ f.data)
    (hnone : f.sub_command = none → f.data = [])
    (hokng : f.command = OK ∨ f.command = NG →
      f.sub_command = none ∧ f.data = []) :
    Frame.parse f.toBytes = .ok (some (f, f.toBytes.length)) := by
  obtain ⟨dst, src, command, sub, data⟩ := f
  simp only at hdst hsrc hcmd hsub hdata hnone hokng
  cases sub with
  | none =>
    have hdata0 : data = [] := hnone rfl
    subst hdata0
    have hshape : Frame.toBytes ⟨dst, src, command, none, []⟩ =
        [PREAMBLE, PREAMBLE, dst, src, command, EOM] := by
      simp [Frame.toBytes]
    rw [hshape]
    have hmem : EOM ∉ [PREAMBLE, PREAMBLE, dst, src, command] := by
      simp only [List.mem_cons, List.not_mem_nil, or_false]
      push_neg
      exact ⟨by decide, by decide, Ne.symm hdst, Ne.symm hsrc, Ne.symm hcmd⟩
    have h1 : findPreamble [PREAMBLE, PREAMBLE, dst, src, command, EOM] =
        some 0 := findPreamble_cons _
    have h2 : findIdx EOM [PREAMBLE, PREAMBLE, dst, src, command, EOM] =
        some 5 := by
      simpa using findIdx_append_cons (r := []) hmem
    simp [Frame.parse, h1, h2, List.getD]
  | some s =>
    have hs : s ≠ EOM := hsub s rfl
    have hko : ¬(command = OK ∨ command = NG) := by
      intro h
      exact Option.noConfusion (hokng h).1
    by_cases hd : data = []
    · subst hd
      have hshape : Frame.toBytes ⟨dst, src, command, some s, []⟩ =
          [PREAMBLE, PREAMBLE, dst, src, command, s, EOM] := by
        simp [Frame.toBytes]
      rw [hshape]
      have hmem : EOM ∉ [PREAMBLE, PREAMBLE, dst, src, command, s] := by
        simp only [List.mem_cons, List.not_mem_nil, or_false]
        push_neg
        exact ⟨by decide, by decide, Ne.symm hdst, Ne.symm hsrc, Ne.symm hcmd,
          Ne.symm hs⟩
      have h1 : findPreamble [PREAMBLE, PREAMBLE, dst, src, command, s, EOM] =
          some 0 := findPreamble_cons _
      have h2 : findIdx EOM [PREAMBLE, PREAMBLE, dst, src, command, s, EOM] =
          some 6 := by
        simpa using findIdx_append_cons (r := []) hmem
      simp [Frame.parse, h1, h2, List.getD, hko]
    · have hshape : Frame.toBytes ⟨dst, src, command, some s, data⟩ =
          PREAMBLE :: PREAMBLE :: dst :: src :: command :: s :: (data ++ [EOM]) := by
        simp [Frame.toBytes]
      rw [hshape]
      have hmem : EOM ∉ [PREAMBLE, PREAMBLE, dst, src, command, s] ++ data := by
        simp only [List.mem_append, List.mem_cons, List.not_mem_nil, or_false]
        push_neg
        exact ⟨⟨by decide, by decide, Ne.symm hdst, Ne.symm hsrc, Ne.symm hcmd,
          Ne.symm hs⟩, hdata⟩
      have h1 : findPreamble
          (PREAMBLE :: PREAMBLE :: dst :: src :: command :: s :: (data ++ [EOM])) =
          some 0 := findPreamble_cons _
      have h2 : findIdx EOM
          (PREAMBLE :: PREAMBLE :: dst :: src :: command :: s :: (data ++ [EOM])) =
          some (6 + data.length) := by
        have h2a := findIdx_append_cons (r := []) hmem
        have hlen : ([PREAMBLE, PREAMBLE, dst, src, command, s] ++ data).length =
            6 + data.length := by
          simp
          omega
        rw [hlen] at h2a
        simpa using h2a
      have htake : (PREAMBLE :: PREAMBLE :: dst :: src :: command :: s ::
          (data ++ [EOM])).take (6 + data.length + 1) =
          PREAMBLE :: PREAMBLE :: dst :: src :: command :: s :: (data ++ [EOM]) := by
        apply List.take_of_length_le
        simp
        omega
      simp [Frame.parse, h1, h2, htake, List.getD, hko, hd]
      rw [if_neg (by omega), show 6 + data.length + 1 =
        data.length + 1 + 1 + 1 + 1 + 1 + 1 + 1 by omega]

/-- Witness for the amended C1 on a frame with sub-command and data. -/
theorem frame_roundtrip_witness :
    Frame.parse (Frame.toBytes ⟨0xB4, 0xE0, 0x14, some 0x01, [0x01, 0x28]⟩) =
      .ok (some (⟨0xB4, 0xE0, 0x14, some 0x01, [0x01, 0x28]⟩,
        (Frame.toBytes ⟨0xB4, 0xE0, 0x14, some 0x01, [0x01, 0x28]⟩).length)) :=
  frame_roundtrip ⟨0xB4, 0xE0, 0x14, some 0x01, [0x01, 0x28]⟩
    (by decide) (by decide) (by decide)
    (fun s hs => by cases hs; decide)
    (by decide) (by decide) (by decide)

/-! ## Claim C4 -/

/-- C4: whenever `Frame::parse` decodes a frame, an OK or NG command byte
forces `sub_command = None` and `data = []`; for any other command byte, an
empty payload decodes to `(None, [])` and a non-empty payload always
decodes to `sub_command = Some(payload[0])`, `data = payload[1:]` — in
particular a one-byte payload becomes a sub-command with no data, never
the reverse. -/
theorem parse_subcommand_rule (buf : List Nat) (f : Frame) (n : Nat)
    (h : Frame.parse buf = .ok (some (f, n))) :
    ∃ payload, framePayload buf = some payload ∧
      ((f.command = OK ∨ f.command = NG) →
        f.sub_command = none ∧ f.data = []) ∧
      (f.command ≠ OK → f.command ≠ NG →
        (payload = [] → f.sub_command = none ∧ f.data = []) ∧
        (∀ b rest, payload = b :: rest →
          f.sub_command = some b ∧ f.data = rest)) := by
  simp only [Frame.parse] at h
  cases h1 : findPreamble buf with
  | none => rw [h1] at h; exact absurd h (by simp)
  | some start =>
    simp only [h1] at h
    cases h2 : findIdx EOM (buf.drop start) with
    | none => rw [h2] at h; exact absurd h (by simp)
    | some pos =>
      simp only [h2] at h
      by_cases hlen : ((buf.drop start).take (pos + 1)).length < 6
      · rw [if_pos hlen] at h
        exact absurd h (by simp)
      · rw [if_neg hlen] at h
        simp only [Except.ok.injEq, Option.some.injEq, Prod.mk.injEq] at h
        obtain ⟨hf, hn⟩ := h
        refine ⟨(((buf.drop start).take (pos + 1)).drop 5).take
          (((buf.drop start).take (pos + 1)).length - 6), ?_, ?_, ?_⟩
        · simp only [framePayload, h1, h2]
          rw [if_neg hlen]
        · intro hcmd
          rw [← hf]
          simp only
          rw [if_pos (by rw [← hf] at hcmd; simp only at hcmd; tauto)]
          exact ⟨rfl, rfl⟩
        · intro hcmd1 hcmd2
          rw [← hf] at hcmd1 hcmd2 ⊢
          simp only at hcmd1 hcmd2 ⊢
          constructor
          · intro hp
            rw [if_pos (by tauto)]
            exact ⟨rfl, rfl⟩
          · intro b rest hp
            rw [if_neg (by
              intro hcon
              rcases hcon with hx | hx | hx
              · exact hcmd1 hx
              · exact hcmd2 hx
              · rw [hp] at hx
                exact List.noConfusion hx)]
            by_cases h1p : (b :: rest : List Nat).length = 1
            · have : rest = [] := by simpa using h1p
              subst this
              rw [hp, if_pos (by simp)]
              simp
            · rw [hp, if_neg (by simpa using h1p)]
              simp

/-- Witness for C4 on a parsed frequency-response buffer whose payload is
five bytes. -/
theorem parse_subcommand_rule_witness :
    ∃ payload,
      framePayload [0xFE, 0xFE, 0xE0, 0xB4, 0x03, 0x00, 0x00, 0x00, 0x45, 0x01, 0xFD] =
        some payload ∧
      (((⟨0xE0, 0xB4, 0x03, some 0x00, [0x00, 0x00, 0x45, 0x01]⟩ : Frame).command = OK ∨
        (⟨0xE0, 0xB4, 0x03, some 0x00, [0x00, 0x00, 0x45, 0x01]⟩ : Frame).command = NG) →
        (⟨0xE0, 0xB4, 0x03, some 0x00, [0x00, 0x00, 0x45, 0x01]⟩ : Frame).sub_command = none ∧
        (⟨0xE0, 0xB4, 0x03, some 0x00, [0x00, 0x00, 0x45, 0x01]⟩ : Frame).data = []) ∧
      ((⟨0xE0, 0xB4, 0x03, some 0x00, [0x00, 0x00, 0x45, 0x01]⟩ : Frame).command ≠ OK →
        (⟨0xE0, 0xB4, 0x03, some 0x00, [0x00, 0x00, 0x45, 0x01]⟩ : Frame).command ≠ NG →
        (payload = [] →
          (⟨0xE0, 0xB4, 0x03, some 0x00, [0x00, 0x00, 0x45, 0x01]⟩ : Frame).sub_command = none ∧
          (⟨0xE0, 0xB4, 0x03, some 0x00, [0x00, 0x00, 0x45, 0x01]⟩ : Frame).data = []) ∧
        (∀ b rest, payload = b :: rest →
          (⟨0xE0, 0xB4, 0x03, some 0x00, [0x00, 0x00, 0x45, 0x01]⟩ : Frame).sub_command = some b ∧
          (⟨0xE0, 0xB4, 0x03, some 0x00, [0x00, 0x00, 0x45, 0x01]⟩ : Frame).data = rest)) :=
  parse_subcommand_rule
    [0xFE, 0xFE, 0xE0, 0xB4, 0x03, 0x00, 0x00, 0x00, 0x45, 0x01, 0xFD]
    ⟨0xE0, 0xB4, 0x03, some 0x00, [0x00, 0x00, 0x45, 0x01]⟩ 11 (by decide)

/-! ## Claim C7 -/

/-- C7: `Frame::parse` reports Incomplete when no two-byte preamble run
exists, and when no terminator occurs at or after the run; it reports
`InvalidFrame` when the preamble-to-terminator span is shorter than 6
bytes; and on success the consumed count equals the span length measured
from the start of the preamble run, so leading garbage is not counted. -/
theorem parse_framing (buf : List Nat) :
    ((∀ i, i < buf.length - 1 →
        ¬(buf.getD i 0 = PREAMBLE ∧ buf.getD (i + 1) 0 = PREAMBLE)) →
      Frame.parse buf = .ok none) ∧
    (∀ start, findPreamble buf = some start → EOM ∉ buf.drop start →
      Frame.parse buf = .ok none) ∧
    (∀ start pos, findPreamble buf = some start →
      findIdx EOM (buf.drop start) = some pos → pos + 1 < 6 →
      Frame.parse buf = .error .InvalidFrame) ∧
    (∀ f n, Frame.parse buf = .ok (some (f, n)) →
      ∃ start pos, findPreamble buf = some start ∧
        findIdx EOM (buf.drop start) = some pos ∧ n = pos + 1) := by
  refine ⟨?_, ?_, ?_, ?_⟩
  · intro h
    simp [Frame.parse, findPreamble_eq_none h]
  · intro start h1 hmem
    simp [Frame.parse, h1, findIdx_eq_none hmem]
  · intro start pos h1 h2 hlt
    simp only [Frame.parse, h1, h2]
    rw [if_pos (lt_of_le_of_lt (List.length_take_le _ _) hlt)]
  · intro f n h
    simp only [Frame.parse] at h
    cases h1 : findPreamble buf with
    | none => rw [h1] at h; exact absurd h (by simp)
    | some start =>
      simp only [h1] at h
      cases h2 : findIdx EOM (buf.drop start) with
      | none => rw [h2] at h; exact absurd h (by simp)
      | some pos =>
        simp only [h2] at h
        by_cases hlen : ((buf.drop start).take (pos + 1)).length < 6
        · rw [if_pos hlen] at h
          exact absurd h (by simp)
        · rw [if_neg hlen] at h
          simp only [Except.ok.injEq, Option.some.injEq, Prod.mk.injEq] at h
          exact ⟨start, pos, rfl, h2, by omega⟩

/-- Witness for C7: no preamble run, preamble but no terminator, a too-short
span, and a successful parse behind two garbage bytes whose consumed count
is measured from the preamble. -/
theorem parse_framing_witness :
    Frame.parse [0x01, 0x02, 0x03] = .ok none ∧
    Frame.parse [0xFE, 0xFE, 0x01] = .ok none ∧
    Frame.parse [0xFE, 0xFE, 0xFD] = .error .InvalidFrame ∧
    (∃ start pos,
      findPreamble [0x00, 0xFF, 0xFE, 0xFE, 0xE0, 0xB4, 0xFB, 0xFD] = some start ∧
      findIdx EOM ([0x00, 0xFF, 0xFE, 0xFE, 0xE0, 0xB4, 0xFB, 0xFD].drop start) =
        some pos ∧
      6 = pos + 1) :=
  ⟨(parse_framing [0x01, 0x02, 0x03]).1 (by decide),
   (parse_framing [0xFE, 0xFE, 0x01]).2.1 0 (by decide) (by decide),
   (parse_framing [0xFE, 0xFE, 0xFD]).2.2.1 0 2 (by decide) (by decide) (by decide),
   (parse_framing [0x00, 0xFF, 0xFE, 0xFE, 0xE0, 0xB4, 0xFB, 0xFD]).2.2.2
     ⟨0xE0, 0xB4, 0xFB, none, []⟩ 6 (by decide)⟩

/-! ## Claim C2 -/

/-- C2 counterexample: a malformed span (preamble immediately followed by a
terminator, 3 bytes) arrives first and a well-formed matching reply is
delivered next, before the deadline — yet `read_response` aborts the whole
wait with `InvalidFrame` instead of continuing the loop to that reply. -/
theorem read_response_malformed_counterexample :
    Frame.parse [0xFE, 0xFE, 0xFD] = .error .InvalidFrame ∧
    Frame.parse [0xFE, 0xFE, 0xE0, 0xB4, 0x03, 0x00, 0x00, 0x00, 0x45, 0x01, 0xFD] =
      .ok (some (⟨0xE0, 0xB4, 0x03, some 0x00, [0x00, 0x00, 0x45, 0x01]⟩, 11)) ∧
    read_response 0xE0 0x03 []
      [[0xFE, 0xFE, 0xFD],
       [0xFE, 0xFE, 0xE0, 0xB4, 0x03, 0x00, 0x00, 0x00, 0x45, 0x01, 0xFD]] =
      .error .InvalidFrame := by decide

/-- C2 amended: whenever `Frame::parse` fails on the buffer contents while
`Radio::read_response` is awaiting a reply, the error propagates through
the `?` operator and aborts the entire wait — the read loop does not
continue. -/
theorem read_response_aborts_on_invalid (ca ec : Nat) (buf chunk : List Nat)
    (rest : List (List Nat)) (e : CivError)
    (h : Frame.parse (buf ++ chunk) = .error e) :
    read_response ca ec buf (chunk :: rest) = .error e := by
  simp only [read_response, h]

/-- Witness for the amended C2 on a concrete malformed chunk. -/
theorem read_response_aborts_on_invalid_witness :
    read_response 0xE0 0x03 [] [[0xFE, 0xFE, 0x00, 0xFD]] =
      .error .InvalidFrame :=
  read_response_aborts_on_invalid 0xE0 0x03 [] [0xFE, 0xFE, 0x00, 0xFD] []
    .InvalidFrame (by decide)

/-! ## Claim C5 -/

/-- C5: the session response reader returns only frames addressed to the
controller whose command byte is OK, NG, or the expected byte; a decoded
frame with a different destination (an echo) is discarded and the loop
continues with the drained buffer, before the unsolicited check; a
controller-addressed frame with a non-matching, non-OK/NG command byte
(an unsolicited notification) is likewise discarded; and a
controller-addressed frame that is OK, NG, or expected is returned at
once — so the first qualifying decoded frame is the one returned, and
neither echoes nor unsolicited frames are ever returned or turned into
errors. -/
theorem read_response_classification (ca ec : Nat) :
    (∀ buf reads f, read_response ca ec buf reads = .ok f →
      f.dst = ca ∧ (f.command = OK ∨ f.command = NG ∨ f.command = ec)) ∧
    (∀ buf chunk rest fr n, Frame.parse (buf ++ chunk) = .ok (some (fr, n)) →
      fr.dst ≠ ca →
      read_response ca ec buf (chunk :: rest) =
        read_response ca ec ((buf ++ chunk).drop n) rest) ∧
    (∀ buf chunk rest fr n, Frame.parse (buf ++ chunk) = .ok (some (fr, n)) →
      fr.dst = ca → fr.command ≠ OK → fr.command ≠ NG → fr.command ≠ ec →
      read_response ca ec buf (chunk :: rest) =
        read_response ca ec ((buf ++ chunk).drop n) rest) ∧
    (∀ buf chunk rest fr n, Frame.parse (buf ++ chunk) = .ok (some (fr, n)) →
      fr.dst = ca → (fr.command = OK ∨ fr.command = NG ∨ fr.command = ec) →
      read_response ca ec buf (chunk :: rest) = .ok fr) := by
  refine ⟨?_, ?_, ?_, ?_⟩
  · intro buf reads
    induction reads generalizing buf with
    | nil =>
      intro f h
      exact absurd h (by simp [read_response])
    | cons chunk rest ih =>
      intro f h
      simp only [read_response] at h
      cases hp : Frame.parse (buf ++ chunk) with
      | error e =>
        rw [hp] at h
        exact absurd h (by simp)
      | ok o =>
        cases o with
        | none =>
          simp only [hp] at h
          exact ih _ _ h
        | some p =>
          obtain ⟨fr, n⟩ := p
          simp only [hp] at h
          by_cases hdst : fr.dst = ca
          · rw [if_neg (by simpa using hdst)] at h
            by_cases hcmd : fr.command = OK ∨ fr.command = NG ∨ fr.command = ec
            · rw [if_pos hcmd] at h
              cases h
              exact ⟨hdst, hcmd⟩
            · rw [if_neg hcmd] at h
              exact ih _ _ h
          · rw [if_pos (by simpa using hdst)] at h
            exact ih _ _ h
  · intro buf chunk rest fr n hp hdst
    simp only [read_response, hp]
    rw [if_pos hdst]
  · intro buf chunk rest fr n hp hdst h1 h2 h3
    simp only [read_response, hp]
    rw [if_neg (by simpa using hdst), if_neg (by tauto)]
  · intro buf chunk rest fr n hp hdst hcmd
    simp only [read_response, hp]
    rw [if_neg (by simpa using hdst), if_pos hcmd]

/-- Witness for C5: a run that skips one echo frame and one unsolicited
frame before returning the frequency reply, the classification of that
reply, and the echo-skip, unsolicited-skip and accept steps at concrete
frames. -/
theorem read_response_classification_witness :
    ((⟨0xE0, 0xB4, 0x03, some 0x00, [0x00, 0x00, 0x45, 0x01]⟩ : Frame).dst = 0xE0 ∧
      ((⟨0xE0, 0xB4, 0x03, some 0x00, [0x00, 0x00, 0x45, 0x01]⟩ : Frame).command = OK ∨
       (⟨0xE0, 0xB4, 0x03, some 0x00, [0x00, 0x00, 0x45, 0x01]⟩ : Frame).command = NG ∨
       (⟨0xE0, 0xB4, 0x03, some 0x00, [0x00, 0x00, 0x45, 0x01]⟩ : Frame).command = 0x03)) ∧
    read_response 0xE0 0x03 [] [[0xFE, 0xFE, 0xB4, 0xE0, 0x03, 0xFD]] =
      read_response 0xE0 0x03 [] [] ∧
    read_response 0xE0 0x03 [] [[0xFE, 0xFE, 0xE0, 0xB4, 0x1C, 0xFD]] =
      read_response 0xE0 0x03 [] [] ∧
    read_response 0xE0 0x03 []
      [[0xFE, 0xFE, 0xE0, 0xB4, 0x03, 0x00, 0x00, 0x00, 0x45, 0x01, 0xFD]] =
      .ok ⟨0xE0, 0xB4, 0x03, some 0x00, [0x00, 0x00, 0x45, 0x01]⟩ :=
  ⟨(read_response_classification 0xE0 0x03).1 []
      [[0xFE, 0xFE, 0xB4, 0xE0, 0x03, 0xFD], [0xFE, 0xFE, 0xE0, 0xB4, 0x1C, 0xFD],
       [0xFE, 0xFE, 0xE0, 0xB4, 0x03, 0x00, 0x00, 0x00, 0x45, 0x01, 0xFD]]
      ⟨0xE0, 0xB4, 0x03, some 0x00, [0x00, 0x00, 0x45, 0x01]⟩ (by decide),
   (read_response_classification 0xE0 0x03).2.1 [] [0xFE, 0xFE, 0xB4, 0xE0, 0x03, 0xFD]
      [] ⟨0xB4, 0xE0, 0x03, none, []⟩ 6 (by decide) (by decide),
   (read_response_classification 0xE0 0x03).2.2.1 [] [0xFE, 0xFE, 0xE0, 0xB4, 0x1C, 0xFD]
      [] ⟨0xE0, 0xB4, 0x1C, none, []⟩ 6 (by decide) (by decide) (by decide) (by decide)
      (by decide),
   (read_response_classification 0xE0 0x03).2.2.2 []
      [0xFE, 0xFE, 0xE0, 0xB4, 0x03, 0x00, 0x00, 0x00, 0x45, 0x01, 0xFD]
      [] ⟨0xE0, 0xB4, 0x03, some 0x00, [0x00, 0x00, 0x45, 0x01]⟩ 11 (by decide)
      (by decide) (by decide)⟩

end Civ
